import Mathlib

/-
  Verification development for the continuous tile-ingestion pipeline of
  src/buildings/clip_buildings_by_census_blocks.py.

  Shallow embedding conventions:
  - The Processing Ledger file is `Option (List String)`: `none` when the
    file does not exist, otherwise the list of physical lines of the file.
    `_mark_processed` appends one line (the code writes the name followed
    by a newline; the line-level model is exact for names without an
    embedded newline, which is what a directory listing produces).
  - Python `str.strip` and the `*.geojson` glob are modelled by executable
    character-list functions `pyStrip` and `hasGeojsonSuffix`.
  - Geometry is abstract: buildings and census blocks are type parameters
    and `ST_Intersects` (composed with the reprojections done inside the
    SQL queries) is an abstract Boolean predicate.
  - DuckDB/fiona calls that can raise are modelled by `Option` results or
    Boolean failure flags recorded in the environment.
-/

namespace Schoolyard

/-- CONFIG constant `MIN_FILE_SIZE = 1000` (source line 31). -/
def MIN_FILE_SIZE : Nat := 1000

/-- The processing-ledger file: `none` when absent, else its lines. -/
abbrev Ledger := Option (List String)

/-- Model of Python `str.strip`: drop whitespace from both ends. -/
def pyStrip (s : String) : String :=
  String.mk ((((s.data.dropWhile Char.isWhitespace).reverse).dropWhile
    Char.isWhitespace).reverse)

/-- The set comprehension of `_is_file_processed` (source lines 66-67):
strip every line and keep the non-empty results. -/
def cleanLines (ls : List String) : List String :=
  (ls.map pyStrip).filter (fun s => !(s == ""))

/-- Source `_is_file_processed` (lines 62-69): `False` when the ledger file
is missing, otherwise membership of `name` among the stripped non-empty
lines of the file. -/
def _is_file_processed (ledger : Ledger) (name : String) : Bool :=
  match ledger with
  | none => false
  | some ls => decide (name ∈ cleanLines ls)

/-- Source `_mark_processed` (lines 72-76): create the file if missing and
append `name` as one new line. -/
def _mark_processed (ledger : Ledger) (name : String) : Ledger :=
  some (ledger.getD [] ++ [name])

/-- Source `_is_stable` (lines 79-87) applied to the two sampled sizes:
stable iff the size did not change and the second sample is at least
`MIN_FILE_SIZE`. -/
def _is_stable (size1 size2 : Nat) : Bool :=
  size1 == size2 && decide (MIN_FILE_SIZE ≤ size2)

/-- Lexicographic order on code points, the order Python `sorted` uses on
strings. -/
def lexLt : List Char → List Char → Bool
  | [], [] => false
  | [], _ :: _ => true
  | _ :: _, [] => false
  | a :: as, b :: bs =>
    if a.val < b.val then true
    else if b.val < a.val then false
    else lexLt as bs

/-- Name comparison used by the scan sort. -/
def nameLt (x y : String) : Bool := lexLt x.data y.data

/-- Insertion step of the model of Python `sorted` (source line 307). -/
def insertSorted (x : String) : List String → List String
  | [] => [x]
  | y :: ys => if nameLt y x then y :: insertSorted x ys else x :: y :: ys

/-- Model of Python `sorted` on filenames (insertion sort: a stable
comparison sort; the claims depend only on membership of the result). -/
def sortNames (l : List String) : List String :=
  l.foldr insertSorted []

/-- Model of the glob pattern of source line 307. -/
def hasGeojsonSuffix (s : String) : Bool :=
  ".geojson".data.isSuffixOf s.data

/-- Scan step of `main` (source lines 307-308): glob `*.geojson`, sort, and
drop the names already recorded in the ledger. -/
def scanCandidates (ledger : Ledger) (dir : List String) : List String :=
  (sortNames (dir.filter (fun n => hasGeojsonSuffix n))).filter
    (fun n => !_is_file_processed ledger n)

/-- A reference block set as loaded by `load_census_once`: its detected
SRID (`none` when the region failed to load, in which case `main` passes
`None` and `process_tile` skips the region) and its census-block polygons.
Polygons are abstract (type parameter `K`). -/
structure Region (K : Type) where
  srid : Option Int
  blocks : List K

/-- One candidate tile as `process_tile` observes it. `hasGeomCol` is the
outcome of `_detect_geom_col` (source line 142); `sridFromGeom` is the
result of the `SELECT ST_SRID(...) LIMIT 1` query of line 150, `none` when
that query raises; `sridFromFiona` is the result of `_get_srid_via_fiona`
(lines 39-48), whose fiona/pyproj internals are I/O and are abstracted to
their `Option Int` outcome; `features` is the list of building rows;
`usJoinFails` and `canadaJoinFails` record whether the region join queries
of lines 179 and 204 raise. -/
structure Tile (B : Type) where
  hasGeomCol : Bool
  sridFromGeom : Option Int
  sridFromFiona : Option Int
  features : List B
  usJoinFails : Bool
  canadaJoinFails : Bool

/-- Result of `process_tile`: the `GEOM_ERROR` sentinel, `None` (no region
matched), or the combined GeoDataFrame of matched rows. -/
inductive TileResult (B : Type) where
  | geomError
  | empty
  | matched (rows : List B)
deriving DecidableEq

/-- SRID detection of source lines 149-157: try reading the SRID off the
loaded geometry; on failure fall back to `_get_srid_via_fiona`. -/
def detect_srid {B : Type} (t : Tile B) : Option Int :=
  match t.sridFromGeom with
  | some s => some s
  | none => t.sridFromFiona

/-- The rows produced by one region join (the SQL of source lines 167-176
and 192-201): an INNER JOIN on `ST_Intersects` emits one output row per
(building, intersecting census-block polygon) pair. The reprojection into
`OUTPUT_CRS` keeps the building attributes, so an output row is modelled
by its building. -/
def regionJoinRows {B K : Type} (intersects : B → K → Bool)
    (features : List B) (blocks : List K) : List B :=
  features.flatMap (fun b => ((blocks.filter (fun k => intersects b k)).map
    (fun _ => b)))

/-- One region block of `process_tile` (source lines 164-187 resp.
189-212): skipped when the region SRID is `None`; a raised join is caught
and contributes nothing; otherwise the match count is taken and the rows
are appended only when the count is positive. -/
def regionResult {B K : Type} (intersects : B → K → Bool) (joinFails : Bool)
    (region : Region K) (features : List B) : List (List B) :=
  match region.srid with
  | none => []
  | some _ =>
    if joinFails then []
    else
      let rows := regionJoinRows intersects features region.blocks
      if 0 < rows.length then [rows] else []

/-- Source `process_tile` (lines 113-240): geometry-column check, SRID
detection, the two region joins, and the final combine; `GEOM_ERROR` when
no geometry column is found or no SRID can be detected, `None` (here
`TileResult.empty`) when no region yields matches, otherwise the
concatenated matched rows. -/
def process_tile {B K : Type} (intersects : B → K → Bool)
    (us canada : Region K) (t : Tile B) : TileResult B :=
  if !t.hasGeomCol then TileResult.geomError
  else
    match detect_srid t with
    | none => TileResult.geomError
    | some _ =>
      let results :=
        regionResult intersects t.usJoinFails us t.features
          ++ regionResult intersects t.canadaJoinFails canada t.features
      if results.isEmpty then TileResult.empty
      else TileResult.matched results.flatten

/-- Source `append_to_gpkg` (lines 243-264). The master output is `none`
when the file does not exist, else its list of rows. When the output
exists the code reads it whole, concatenates, writes to a temporary path
and atomically replaces the original; `writeFails` models the caught
exception of lines 262-264, under which the atomic replace leaves the
original output intact. The function always returns (the exception is
swallowed). -/
def append_to_gpkg {B : Type} (writeFails : Bool) (gdf : List B)
    (output : Option (List B)) : Option (List B) :=
  if writeFails then output
  else
    match output with
    | some existing => some (existing ++ gdf)
    | none => some gdf

/-- The mutable state the ingestion loop acts on: the ledger file, the
names present in the watched directory, and the master output file. -/
structure PipeState (B : Type) where
  ledger : Ledger
  dir : List String
  output : Option (List B)

/-- The fixed environment of one run of `main`: the intersection
predicate, the two loaded regions, and for each filename the tile content
behind it, the two sizes the stability check samples, and whether the sink
write for its batch raises. -/
structure TileEnv (B K : Type) where
  intersects : B → K → Bool
  us : Region K
  canada : Region K
  tileOf : String → Tile B
  sizeBefore : String → Nat
  sizeAfter : String → Nat
  writeFails : String → Bool

/-- Outcome of the stability check of source line 319 for one name. -/
def envStable {B K : Type} (env : TileEnv B K) (name : String) : Bool :=
  _is_stable (env.sizeBefore name) (env.sizeAfter name)

/-- The body of the per-candidate loop of `main` (source lines 317-358):
skip unstable files; on `GEOM_ERROR` mark processed and keep the file; on
no matches mark processed and delete the file; on matches append to the
master output, mark processed and delete the file. -/
def handleCandidate {B K : Type} (env : TileEnv B K) (st : PipeState B)
    (name : String) : PipeState B :=
  if envStable env name then
    match process_tile env.intersects env.us env.canada (env.tileOf name) with
    | TileResult.geomError =>
        { st with ledger := _mark_processed st.ledger name }
    | TileResult.empty =>
        { st with ledger := _mark_processed st.ledger name,
                  dir := st.dir.erase name }
    | TileResult.matched rows =>
        { st with output := append_to_gpkg (env.writeFails name) rows st.output,
                  ledger := _mark_processed st.ledger name,
                  dir := st.dir.erase name }
  else st

/-- One scan cycle of `main` (source lines 305-358): compute the candidate
list and drive every candidate through `handleCandidate`. -/
def scanCycle {B K : Type} (env : TileEnv B K) (st : PipeState B) :
    PipeState B :=
  (scanCandidates st.ledger st.dir).foldl (handleCandidate env) st

/-
  Concrete fixtures used by witnesses and counterexamples. Buildings and
  census blocks are instantiated by natural-number identifiers.
-/

/-- Intersection predicate under which every building meets every block. -/
def iAll : Nat → Nat → Bool := fun _ _ => true

/-- Intersection predicate under which no building meets any block. -/
def iNone : Nat → Nat → Bool := fun _ _ => false

/-- Intersection predicate matching a building to the block of the same
identifier. -/
def iEq : Nat → Nat → Bool := fun b k => b == k

/-- A loaded US region with two census blocks. -/
def usDup : Region Nat := ⟨some 5070, [0, 1]⟩

/-- A loaded Canada region with no census block. -/
def caDup : Region Nat := ⟨some 3347, []⟩

/-- A loaded US region with a single census block. -/
def usOne : Region Nat := ⟨some 5070, [0]⟩

/-- A healthy tile holding the single building `7`. -/
def tileDup : Tile Nat := ⟨true, some 4326, none, [7], false, false⟩

/-- Environment in which building `7` meets both US blocks. -/
def envDup : TileEnv Nat Nat :=
  ⟨iAll, usDup, caDup, fun _ => tileDup, fun _ => 2000, fun _ => 2000,
    fun _ => false⟩

/-- Fresh state: no ledger file, one stable tile, no output yet. -/
def stDup : PipeState Nat := ⟨none, ["t.geojson"], none⟩

/-- State whose single directory entry is already recorded in the ledger. -/
def stC1 : PipeState Nat := ⟨some ["a.geojson"], ["a.geojson"], none⟩

/-- A tile in which no geometry column is detected. -/
def tileGeo : Tile Nat := ⟨false, none, none, [], false, false⟩

/-- Environment delivering the geometry-error tile for every name. -/
def envGeo : TileEnv Nat Nat :=
  ⟨iAll, usDup, caDup, fun _ => tileGeo, fun _ => 2000, fun _ => 2000,
    fun _ => false⟩

/-- Fresh state holding the geometry-error tile. -/
def stGeo : PipeState Nat := ⟨none, ["g.geojson"], none⟩

/-- A healthy tile holding the single building `5`. -/
def tileNoMatch : Tile Nat := ⟨true, some 4326, none, [5], false, false⟩

/-- Environment in which no building meets any block of either region. -/
def envNoMatch : TileEnv Nat Nat :=
  ⟨iNone, ⟨some 5070, [1]⟩, ⟨some 3347, [2]⟩, fun _ => tileNoMatch,
    fun _ => 2000, fun _ => 2000, fun _ => false⟩

/-- Fresh state holding the no-match tile. -/
def stNoMatch : PipeState Nat := ⟨none, ["e.geojson"], none⟩

/-- US region holding exactly the block of building `7`. -/
def us4 : Region Nat := ⟨some 5070, [7]⟩

/-- Canada region with no blocks, used with `iEq`. -/
def ca4 : Region Nat := ⟨some 3347, []⟩

/-- A healthy tile whose single building meets exactly one block. -/
def tile4 : Tile Nat := ⟨true, some 4326, none, [7], false, false⟩

/-- A healthy tile with no features, SRID read off the geometry. -/
def tile7 : Tile Nat := ⟨true, some 4326, none, [], false, false⟩

/-- A healthy tile holding the single building `3`. -/
def tile8 : Tile Nat := ⟨true, some 4326, none, [3], false, false⟩

/-- Environment delivering `tile8` for every name. -/
def env8 : TileEnv Nat Nat :=
  ⟨iAll, usDup, caDup, fun _ => tile8, fun _ => 2000, fun _ => 2000,
    fun _ => false⟩

/-- Fresh state holding the `tile8` file. -/
def st8 : PipeState Nat := ⟨none, ["b.geojson"], none⟩

/-- Environment whose sink write raises for every name. -/
def env9 : TileEnv Nat Nat :=
  ⟨iAll, usOne, caDup, fun _ => tile8, fun _ => 2000, fun _ => 2000,
    fun _ => true⟩

/-- State with an existing output row, used for the sink-failure claim. -/
def st9 : PipeState Nat := ⟨none, ["w.geojson"], some [1]⟩

/-
  Helper lemmas shared by the claim theorems.
-/

theorem cleanLines_append (xs ys : List String) :
    cleanLines (xs ++ ys) = cleanLines xs ++ cleanLines ys := by
  simp [cleanLines, List.filter_append]

theorem cleanLines_singleton_clean {name : String} (h1 : pyStrip name = name)
    (h2 : name ≠ "") : cleanLines [name] = [name] := by
  simp [cleanLines, h1, h2]

theorem is_processed_mark_self {name : String} (h1 : pyStrip name = name)
    (h2 : name ≠ "") (L : Ledger) :
    _is_file_processed (_mark_processed L name) name = true := by
  simp only [_is_file_processed, _mark_processed, decide_eq_true_eq]
  rw [cleanLines_append, cleanLines_singleton_clean h1 h2]
  simp

theorem not_mem_scanCandidates {ledger : Ledger} {name : String}
    (h : _is_file_processed ledger name = true) (dir : List String) :
    name ∉ scanCandidates ledger dir := by
  simp [scanCandidates, List.mem_filter, h]

theorem mem_insertSorted (x a : String) (l : List String) :
    x ∈ insertSorted a l ↔ x = a ∨ x ∈ l := by
  induction l with
  | nil => simp [insertSorted]
  | cons y ys ih =>
    have hEq : insertSorted a (y :: ys)
        = if nameLt y a then y :: insertSorted a ys else a :: y :: ys := rfl
    by_cases hle : nameLt y a
    · rw [hEq, if_pos hle]
      simp only [List.mem_cons, ih]
      tauto
    · rw [hEq, if_neg hle]
      simp only [List.mem_cons]

theorem mem_sortNames (x : String) (l : List String) :
    x ∈ sortNames l ↔ x ∈ l := by
  induction l with
  | nil => simp [sortNames]
  | cons y ys ih =>
    have hstep : sortNames (y :: ys) = insertSorted y (sortNames ys) := rfl
    rw [hstep, mem_insertSorted, ih]
    simp

theorem scanCandidates_eq_nil_of_processed {ledger : Ledger}
    {dir : List String} (h : ∀ n ∈ dir, _is_file_processed ledger n = true) :
    scanCandidates ledger dir = [] := by
  apply List.filter_eq_nil_iff.mpr
  intro n hn
  have hmem : n ∈ dir := by
    have := (mem_sortNames n _).mp hn
    exact (List.mem_filter.mp this).1
  simp [h n hmem]

theorem detect_srid_eq_none_iff {B : Type} (t : Tile B) :
    detect_srid t = none ↔
      t.sridFromGeom = none ∧ t.sridFromFiona = none := by
  cases hs : t.sridFromGeom <;> simp [detect_srid, hs]

theorem regionJoinRows_eq_nil {B K : Type} {i : B → K → Bool} {fs : List B}
    {blks : List K} (h : ∀ b ∈ fs, ∀ k ∈ blks, i b k = false) :
    regionJoinRows i fs blks = [] := by
  induction fs with
  | nil => simp [regionJoinRows]
  | cons f fs ih =>
    have hf : blks.filter (fun k => i f k) = [] := by
      apply List.filter_eq_nil_iff.mpr
      intro k hk
      simp [h f (by simp) k hk]
    have hrest : regionJoinRows i fs blks = [] :=
      ih (fun b hb k hk => h b (by simp [hb]) k hk)
    simp [regionJoinRows, List.flatMap_cons, hf]
    simpa [regionJoinRows] using hrest

theorem regionResult_eq_nil {B K : Type} {i : B → K → Bool} {fs : List B}
    {r : Region K} (jf : Bool)
    (h : regionJoinRows i fs r.blocks = []) :
    regionResult i jf r fs = [] := by
  unfold regionResult
  cases hs : r.srid with
  | none => rfl
  | some s =>
    cases jf with
    | true => rfl
    | false => simp [h]

theorem process_tile_ne_geomError {B K : Type} {i : B → K → Bool}
    {us canada : Region K} {t : Tile B} (hg : t.hasGeomCol = true)
    (hd : (detect_srid t).isSome = true) :
    process_tile i us canada t ≠ TileResult.geomError := by
  obtain ⟨s, hs⟩ := Option.isSome_iff_exists.mp hd
  unfold process_tile
  rw [hs]
  simp [hg]
  split <;> simp

theorem process_tile_usFail_eq {B K : Type} (i : B → K → Bool)
    (us canada : Region K) (t : Tile B) :
    process_tile i us canada { t with usJoinFails := true }
      = process_tile i { us with srid := none } canada t := by
  unfold process_tile detect_srid regionResult
  cases hs : us.srid <;> simp [hs]

theorem process_tile_caFail_eq {B K : Type} (i : B → K → Bool)
    (us canada : Region K) (t : Tile B) :
    process_tile i us canada { t with canadaJoinFails := true }
      = process_tile i us { canada with srid := none } t := by
  unfold process_tile detect_srid regionResult
  cases hs : canada.srid <;> simp [hs]

theorem mem_dir_handle {B K : Type} (env : TileEnv B K) (st : PipeState B)
    (n name : String)
    (hg : process_tile env.intersects env.us env.canada (env.tileOf name)
      = TileResult.geomError)
    (hmem : name ∈ st.dir) : name ∈ (handleCandidate env st n).dir := by
  by_cases hne : n = name
  · subst hne
    unfold handleCandidate
    split
    · rw [hg]
      exact hmem
    · exact hmem
  · have hne2 : name ≠ n := fun h => hne h.symm
    unfold handleCandidate
    split
    · split
      · exact hmem
      · exact (List.mem_erase_of_ne hne2).mpr hmem
      · exact (List.mem_erase_of_ne hne2).mpr hmem
    · exact hmem

theorem mem_dir_fold {B K : Type} (env : TileEnv B K) (ns : List String)
    (st : PipeState B) (name : String)
    (hg : process_tile env.intersects env.us env.canada (env.tileOf name)
      = TileResult.geomError)
    (hmem : name ∈ st.dir) :
    name ∈ (ns.foldl (handleCandidate env) st).dir := by
  induction ns generalizing st with
  | nil => exact hmem
  | cons n ns ih => exact ih _ (mem_dir_handle env st n name hg hmem)

theorem regionJoinRows_cons {B K : Type} (i : B → K → Bool) (f : B)
    (fs : List B) (blks : List K) :
    regionJoinRows i (f :: fs) blks
      = ((blks.filter (fun k => i f k)).map (fun _ => f))
          ++ regionJoinRows i fs blks := by
  simp [regionJoinRows]

theorem count_regionJoinRows {B K : Type} [DecidableEq B]
    (i : B → K → Bool) (fs : List B) (blks : List K) (b : B) :
    (regionJoinRows i fs blks).count b
      = fs.count b * blks.countP (fun k => i b k) := by
  induction fs with
  | nil => simp [regionJoinRows]
  | cons f fs ih =>
    rw [regionJoinRows_cons, List.count_append, ih]
    by_cases hfb : f = b
    · subst hfb
      simp [List.map_const', List.count_replicate, List.count_cons,
        List.countP_eq_length_filter]
      ring
    · simp [List.map_const', List.count_replicate, List.count_cons, hfb]

theorem count_regionResult_le {B K : Type} [DecidableEq B]
    (i : B → K → Bool) (jf : Bool) (r : Region K) (fs : List B) (b : B) :
    ((regionResult i jf r fs).flatten).count b
      ≤ fs.count b * r.blocks.countP (fun k => i b k) := by
  unfold regionResult
  cases hs : r.srid with
  | none => simp
  | some s =>
    cases jf with
    | true => simp
    | false =>
      by_cases hlen : 0 < (regionJoinRows i fs r.blocks).length
      · simp [hlen, count_regionJoinRows]
      · simp [hlen]

/-
  Claim theorems.
-/

/-- Claim C1: a filename recorded in the Processing Ledger is excluded
from the candidate list of a scan cycle, and when every file of the
watched directory is already recorded, a full scan cycle leaves the
pipeline state untouched, so a file already in the Ledger is never re-read
or reprocessed. -/
theorem claim_C1_ledger_excludes_candidates {B K : Type} (env : TileEnv B K)
    (st : PipeState B) (name : String)
    (h : _is_file_processed st.ledger name = true) :
    name ∉ scanCandidates st.ledger st.dir
    ∧ ((∀ n ∈ st.dir, _is_file_processed st.ledger n = true) →
        scanCycle env st = st) := by
  refine ⟨not_mem_scanCandidates h st.dir, ?_⟩
  intro hall
  unfold scanCycle
  rw [scanCandidates_eq_nil_of_processed hall]
  rfl

/-- Witness for claim C1 at a concrete ledger and directory. -/
theorem claim_C1_witness :
    _is_file_processed stC1.ledger "a.geojson" = true
    ∧ ("a.geojson" ∉ scanCandidates stC1.ledger stC1.dir
        ∧ ((∀ n ∈ stC1.dir, _is_file_processed stC1.ledger n = true) →
            scanCycle envDup stC1 = stC1)) :=
  ⟨by decide, claim_C1_ledger_excludes_candidates envDup stC1 "a.geojson"
    (by decide)⟩

/-- Claim C2: when the Tile Processor returns `GEOM_ERROR` for a stable
tile, the loop marks the name processed but does not delete the file: the
directory is unchanged by the handling step and the name is still present
after the whole scan cycle. -/
theorem claim_C2_geom_error_keeps_file {B K : Type} (env : TileEnv B K)
    (st : PipeState B) (name : String)
    (hst : envStable env name = true)
    (hg : process_tile env.intersects env.us env.canada (env.tileOf name)
      = TileResult.geomError)
    (hmem : name ∈ st.dir) :
    (handleCandidate env st name).ledger = _mark_processed st.ledger name
    ∧ (handleCandidate env st name).dir = st.dir
    ∧ name ∈ (scanCycle env st).dir := by
  refine ⟨?_, ?_, ?_⟩
  · simp [handleCandidate, hst, hg]
  · simp [handleCandidate, hst, hg]
  · exact mem_dir_fold env _ st name hg hmem

/-- Witness for claim C2 on a tile with no detectable geometry column. -/
theorem claim_C2_witness :
    (envStable envGeo "g.geojson" = true
      ∧ process_tile envGeo.intersects envGeo.us envGeo.canada
          (envGeo.tileOf "g.geojson") = TileResult.geomError
      ∧ "g.geojson" ∈ stGeo.dir)
    ∧ ((handleCandidate envGeo stGeo "g.geojson").ledger
        = _mark_processed stGeo.ledger "g.geojson"
      ∧ (handleCandidate envGeo stGeo "g.geojson").dir = stGeo.dir
      ∧ "g.geojson" ∈ (scanCycle envGeo stGeo).dir) :=
  ⟨⟨by decide, by decide, by decide⟩,
    claim_C2_geom_error_keeps_file envGeo stGeo "g.geojson" (by decide)
      (by decide) (by decide)⟩

/-- Claim C3: a stable, well-formed tile (geometry column present, SRID
detectable) none of whose features intersects any block of either loaded
region makes the Tile Processor return `Empty`, and the loop marks the
name processed and deletes the source file. -/
theorem claim_C3_no_match_empty_dropped {B K : Type} (env : TileEnv B K)
    (st : PipeState B) (name : String)
    (hst : envStable env name = true)
    (hg : (env.tileOf name).hasGeomCol = true)
    (hd : (detect_srid (env.tileOf name)).isSome = true)
    (hUS : ∀ b ∈ (env.tileOf name).features, ∀ k ∈ env.us.blocks,
      env.intersects b k = false)
    (hCA : ∀ b ∈ (env.tileOf name).features, ∀ k ∈ env.canada.blocks,
      env.intersects b k = false) :
    process_tile env.intersects env.us env.canada (env.tileOf name)
      = TileResult.empty
    ∧ (handleCandidate env st name).ledger = _mark_processed st.ledger name
    ∧ (handleCandidate env st name).dir = st.dir.erase name := by
  obtain ⟨s, hs⟩ := Option.isSome_iff_exists.mp hd
  have hU : regionResult env.intersects (env.tileOf name).usJoinFails env.us
      (env.tileOf name).features = [] :=
    regionResult_eq_nil _ (regionJoinRows_eq_nil hUS)
  have hC : regionResult env.intersects (env.tileOf name).canadaJoinFails
      env.canada (env.tileOf name).features = [] :=
    regionResult_eq_nil _ (regionJoinRows_eq_nil hCA)
  have hemp : process_tile env.intersects env.us env.canada (env.tileOf name)
      = TileResult.empty := by
    unfold process_tile
    rw [hs]
    simp [hg, hU, hC]
  exact ⟨hemp, by simp [handleCandidate, hst, hemp],
    by simp [handleCandidate, hst, hemp]⟩

/-- Witness for claim C3 on a tile whose building meets no block. -/
theorem claim_C3_witness :
    (envStable envNoMatch "e.geojson" = true
      ∧ (envNoMatch.tileOf "e.geojson").hasGeomCol = true
      ∧ (detect_srid (envNoMatch.tileOf "e.geojson")).isSome = true)
    ∧ (process_tile envNoMatch.intersects envNoMatch.us envNoMatch.canada
        (envNoMatch.tileOf "e.geojson") = TileResult.empty
      ∧ (handleCandidate envNoMatch stNoMatch "e.geojson").ledger
          = _mark_processed stNoMatch.ledger "e.geojson"
      ∧ (handleCandidate envNoMatch stNoMatch "e.geojson").dir
          = stNoMatch.dir.erase "e.geojson") :=
  ⟨⟨by decide, by decide, by decide⟩,
    claim_C3_no_match_empty_dropped envNoMatch stNoMatch "e.geojson"
      (by decide) (by decide) (by decide) (by decide) (by decide)⟩

/-- Claim C4 is false as stated: starting from a fresh pipeline (empty
ledger, empty output) a single scan cycle over a single never-processed
tile puts building `7` into the master output twice, because the tile
joins it against two qualifying US blocks; no tile was reprocessed. -/
theorem claim_C4_counterexample :
    _is_file_processed stDup.ledger "t.geojson" = false
    ∧ (scanCycle envDup stDup).output = some [7, 7]
    ∧ ((scanCycle envDup stDup).output.getD []).count 7 = 2 :=
  ⟨by decide, by decide, by decide⟩

/-- Claim C4 (amended): a building can enter the MasterDataset several
times from one tile when it intersects several qualifying blocks or both
regions; when every building of the tile intersects at most one qualifying
block across both regions, the batch returned by the Tile Processor
contains each building at most once (and the Ledger prevents the batch
from being produced again, see claim C1). -/
theorem claim_C4_amended_no_dup {B K : Type} [DecidableEq B]
    (i : B → K → Bool) (us canada : Region K) (t : Tile B) (rows : List B)
    (b : B) (hnd : t.features.Nodup)
    (hone : us.blocks.countP (fun k => i b k)
      + canada.blocks.countP (fun k => i b k) ≤ 1)
    (hm : process_tile i us canada t = TileResult.matched rows) :
    rows.count b ≤ 1 := by
  unfold process_tile at hm
  by_cases hg : t.hasGeomCol
  · cases hd : detect_srid t with
    | none =>
      rw [hd] at hm
      simp [hg] at hm
    | some s =>
      rw [hd] at hm
      by_cases he : (regionResult i t.usJoinFails us t.features
          ++ regionResult i t.canadaJoinFails canada t.features).isEmpty
      · simp [hg, he] at hm
      · simp [hg, he] at hm
        have h1 := count_regionResult_le i t.usJoinFails us t.features b
        have h2 := count_regionResult_le i t.canadaJoinFails canada
          t.features b
        have hcnt : t.features.count b ≤ 1 :=
          List.nodup_iff_count_le_one.mp hnd b
        calc rows.count b
            = ((regionResult i t.usJoinFails us t.features).flatten
                ++ (regionResult i t.canadaJoinFails canada
                  t.features).flatten).count b := by rw [← hm]
          _ = ((regionResult i t.usJoinFails us t.features).flatten).count b
              + ((regionResult i t.canadaJoinFails canada
                  t.features).flatten).count b := by
                rw [List.count_append]
          _ ≤ t.features.count b * us.blocks.countP (fun k => i b k)
              + t.features.count b
                * canada.blocks.countP (fun k => i b k) :=
                Nat.add_le_add h1 h2
          _ = t.features.count b * (us.blocks.countP (fun k => i b k)
              + canada.blocks.countP (fun k => i b k)) := by ring
          _ ≤ 1 * 1 := Nat.mul_le_mul hcnt hone
          _ = 1 := by ring
  · simp [hg] at hm

/-- Witness for the amended claim C4: one building, one matching block. -/
theorem claim_C4_amended_witness :
    (tile4.features.Nodup
      ∧ us4.blocks.countP (fun k => iEq 7 k)
        + ca4.blocks.countP (fun k => iEq 7 k) ≤ 1
      ∧ process_tile iEq us4 ca4 tile4 = TileResult.matched [7])
    ∧ ([7] : List Nat).count 7 ≤ 1 :=
  ⟨⟨by decide, by decide, by decide⟩,
    claim_C4_amended_no_dup iEq us4 ca4 tile4 [7] 7 (by decide) (by decide)
      (by decide)⟩

/-- Claim C5: the Sink Appender creates a missing output file with exactly
the appended rows, and appends to an existing output by concatenation, so
every previously stored row is kept ahead of the new rows. -/
theorem claim_C5_append_preserves {B : Type} (gdf ex : List B) :
    append_to_gpkg false gdf none = some gdf
    ∧ append_to_gpkg false gdf (some ex) = some (ex ++ gdf) := by
  constructor <;> simp [append_to_gpkg]

/-- Claim C6 is false as stated for every name: marking the empty name
writes a line that the reading side strips and drops, so a later
`_is_file_processed` still answers `false` for it. -/
theorem claim_C6_counterexample :
    _is_file_processed (_mark_processed none "") "" = false := by decide

/-- Claim C6 (amended): for every non-empty name that equals its own
whitespace-stripped form, marking durably stores the name (the ledger file
exists afterwards, and since the modelled ledger state is exactly the
persisted file content, rereading it after a restart yields the same
answer), a later membership test answers `true`, a missing ledger file
answers `false` for every name, and marking the same name twice changes no
membership answer, so only membership and not multiplicity matters. -/
theorem claim_C6_amended_ledger_membership (name q : String) (L : Ledger)
    (h1 : pyStrip name = name) (h2 : name ≠ "") :
    (_mark_processed L name).isSome = true
    ∧ _is_file_processed (_mark_processed L name) name = true
    ∧ _is_file_processed none q = false
    ∧ _is_file_processed (_mark_processed (_mark_processed L name) name) q
        = _is_file_processed (_mark_processed L name) q := by
  refine ⟨rfl, is_processed_mark_self h1 h2 L, rfl, ?_⟩
  simp only [_is_file_processed, _mark_processed, Option.getD_some]
  rw [decide_eq_decide]
  rw [cleanLines_append, cleanLines_append]
  simp only [List.mem_append]
  tauto

/-- Witness for the amended claim C6 at a concrete clean name. -/
theorem claim_C6_amended_witness :
    (pyStrip "a.geojson" = "a.geojson" ∧ "a.geojson" ≠ "")
    ∧ ((_mark_processed (some ["x"]) "a.geojson").isSome = true
      ∧ _is_file_processed (_mark_processed (some ["x"]) "a.geojson")
          "a.geojson" = true
      ∧ _is_file_processed none "b.geojson" = false
      ∧ _is_file_processed
          (_mark_processed (_mark_processed (some ["x"]) "a.geojson")
            "a.geojson") "b.geojson"
        = _is_file_processed (_mark_processed (some ["x"]) "a.geojson")
            "b.geojson") :=
  ⟨⟨by decide, by decide⟩,
    claim_C6_amended_ledger_membership "a.geojson" "b.geojson" (some ["x"])
      (by decide) (by decide)⟩

/-- Claim C7: on a tile whose geometry column was found, SRID detection
prefers the value read off the loaded geometry, falls back to the embedded
CRS metadata only when that read fails, and the Tile Processor returns
`GEOM_ERROR` exactly when both sources fail. -/
theorem claim_C7_srid_detection_order {B K : Type} (i : B → K → Bool)
    (us canada : Region K) (t : Tile B) (h : t.hasGeomCol = true) :
    (t.sridFromGeom.isSome = true → detect_srid t = t.sridFromGeom)
    ∧ (t.sridFromGeom = none → detect_srid t = t.sridFromFiona)
    ∧ (process_tile i us canada t = TileResult.geomError ↔
        (t.sridFromGeom = none ∧ t.sridFromFiona = none)) := by
  refine ⟨?_, ?_, ?_, ?_⟩
  · intro hs
    obtain ⟨s, hs2⟩ := Option.isSome_iff_exists.mp hs
    simp [detect_srid, hs2]
  · intro hn
    simp [detect_srid, hn]
  · intro hp
    cases hd : detect_srid t with
    | none => exact (detect_srid_eq_none_iff t).mp hd
    | some s =>
      exact absurd hp (process_tile_ne_geomError h (by simp [hd]))
  · rintro ⟨ha, hb⟩
    unfold process_tile
    simp [h, detect_srid, ha, hb]

/-- Witness for claim C7 on a tile whose geometry carries the SRID. -/
theorem claim_C7_witness :
    tile7.hasGeomCol = true
    ∧ ((tile7.sridFromGeom.isSome = true → detect_srid tile7
          = tile7.sridFromGeom)
      ∧ (tile7.sridFromGeom = none → detect_srid tile7
          = tile7.sridFromFiona)
      ∧ (process_tile iAll usDup caDup tile7 = TileResult.geomError ↔
          (tile7.sridFromGeom = none ∧ tile7.sridFromFiona = none))) :=
  ⟨by decide, claim_C7_srid_detection_order iAll usDup caDup tile7
    (by decide)⟩

/-- Claim C8: a caught join failure for one region is equivalent to that
region being skipped, so the other region joins exactly as before, and for
a stable well-formed tile the ledger mark and the file deletion are the
same whatever the join-failure flags are. -/
theorem claim_C8_join_failure_isolated {B K : Type} (env : TileEnv B K)
    (st : PipeState B) (name : String)
    (hg : (env.tileOf name).hasGeomCol = true)
    (hd : (detect_srid (env.tileOf name)).isSome = true)
    (hst : envStable env name = true) :
    process_tile env.intersects env.us env.canada
        { env.tileOf name with usJoinFails := true }
      = process_tile env.intersects { env.us with srid := none } env.canada
        (env.tileOf name)
    ∧ process_tile env.intersects env.us env.canada
        { env.tileOf name with canadaJoinFails := true }
      = process_tile env.intersects env.us { env.canada with srid := none }
        (env.tileOf name)
    ∧ (handleCandidate env st name).ledger = _mark_processed st.ledger name
    ∧ (handleCandidate env st name).dir = st.dir.erase name := by
  refine ⟨process_tile_usFail_eq env.intersects env.us env.canada
    (env.tileOf name),
    process_tile_caFail_eq env.intersects env.us env.canada
      (env.tileOf name), ?_, ?_⟩ <;>
  · cases hr : process_tile env.intersects env.us env.canada
        (env.tileOf name) with
    | geomError => exact absurd hr (process_tile_ne_geomError hg hd)
    | empty => simp [handleCandidate, hst, hr]
    | matched rows => simp [handleCandidate, hst, hr]

/-- Witness for claim C8 on a healthy single-building tile. -/
theorem claim_C8_witness :
    (tile8.hasGeomCol = true ∧ (detect_srid tile8).isSome = true
      ∧ envStable env8 "b.geojson" = true)
    ∧ (process_tile env8.intersects env8.us env8.canada
          { env8.tileOf "b.geojson" with usJoinFails := true }
        = process_tile env8.intersects { env8.us with srid := none }
          env8.canada (env8.tileOf "b.geojson")
      ∧ process_tile env8.intersects env8.us env8.canada
          { env8.tileOf "b.geojson" with canadaJoinFails := true }
        = process_tile env8.intersects env8.us
          { env8.canada with srid := none } (env8.tileOf "b.geojson")
      ∧ (handleCandidate env8 st8 "b.geojson").ledger
          = _mark_processed st8.ledger "b.geojson"
      ∧ (handleCandidate env8 st8 "b.geojson").dir
          = st8.dir.erase "b.geojson") :=
  ⟨⟨by decide, by decide, by decide⟩,
    claim_C8_join_failure_isolated env8 st8 "b.geojson" (by decide)
      (by decide) (by decide)⟩

/-- Claim C9: a failing sink write is swallowed (the output file is left
as it was and the appender returns), the loop still marks the tile
processed, the ledger then reports the name processed, and the name is
excluded from every later candidate list, so the failed write is never
retried. -/
theorem claim_C9_write_failure_not_retried {B K : Type} (env : TileEnv B K)
    (st : PipeState B) (name : String) (rows : List B) (d : List String)
    (hst : envStable env name = true)
    (hm : process_tile env.intersects env.us env.canada (env.tileOf name)
      = TileResult.matched rows)
    (hw : env.writeFails name = true)
    (h1 : pyStrip name = name) (h2 : name ≠ "") :
    append_to_gpkg true rows st.output = st.output
    ∧ (handleCandidate env st name).output = st.output
    ∧ (handleCandidate env st name).ledger = _mark_processed st.ledger name
    ∧ _is_file_processed (handleCandidate env st name).ledger name = true
    ∧ name ∉ scanCandidates (handleCandidate env st name).ledger d := by
  have happ : append_to_gpkg true rows st.output = st.output := by
    simp [append_to_gpkg]
  have hled : (handleCandidate env st name).ledger
      = _mark_processed st.ledger name := by
    simp [handleCandidate, hst, hm]
  have hproc : _is_file_processed (handleCandidate env st name).ledger name
      = true := by
    rw [hled]
    exact is_processed_mark_self h1 h2 st.ledger
  refine ⟨happ, ?_, hled, hproc, not_mem_scanCandidates hproc d⟩
  simp [handleCandidate, hst, hm, hw, happ]

/-- Witness for claim C9 on a matched tile whose sink write raises. -/
theorem claim_C9_witness :
    (envStable env9 "w.geojson" = true
      ∧ process_tile env9.intersects env9.us env9.canada
          (env9.tileOf "w.geojson") = TileResult.matched [3]
      ∧ env9.writeFails "w.geojson" = true
      ∧ pyStrip "w.geojson" = "w.geojson" ∧ "w.geojson" ≠ "")
    ∧ (append_to_gpkg true [3] st9.output = st9.output
      ∧ (handleCandidate env9 st9 "w.geojson").output = st9.output
      ∧ (handleCandidate env9 st9 "w.geojson").ledger
          = _mark_processed st9.ledger "w.geojson"
      ∧ _is_file_processed (handleCandidate env9 st9 "w.geojson").ledger
          "w.geojson" = true
      ∧ "w.geojson" ∉ scanCandidates
          (handleCandidate env9 st9 "w.geojson").ledger ["w.geojson"]) :=
  ⟨⟨by decide, by decide, by decide, by decide, by decide⟩,
    claim_C9_write_failure_not_retried env9 st9 "w.geojson" [3]
      ["w.geojson"] (by decide) (by decide) (by decide) (by decide)
      (by decide)⟩

/-- Claim C10: each region join emits one output row per (building,
intersecting block) pair, so the multiplicity of a building in the join
rows is its feature multiplicity times the number of intersecting blocks
of that region; concretely, a tile whose single building meets the two
blocks of the US region while the Canada region matches nothing yields
`MatchedFeatures` holding that building twice. -/
theorem claim_C10_per_pair_rows {B K : Type} [DecidableEq B]
    (i : B → K → Bool) (fs : List B) (blks : List K) (b : B) :
    (regionJoinRows i fs blks).count b
      = fs.count b * blks.countP (fun k => i b k)
    ∧ process_tile iAll usDup caDup tileDup = TileResult.matched [7, 7]
    ∧ ([7, 7] : List Nat).count 7 = 2 :=
  ⟨count_regionJoinRows i fs blks b, by decide, by decide⟩

end Schoolyard
